import Mathlib

/-!
Shallow embedding of the credit-entry ledger application
(src/Cred_entry_strmlt_better_ui.py) and proofs about its core logic.

The worksheet backing store is modelled as a list of data rows, each row a
list of cells; a cell is either a string or an integer (the two value shapes
the app actually writes as spreadsheet values: the assigned ID is a Python
int, every other field is passed through as entered). The monetary amount is
carried as an opaque `Cell`, so no floating-point semantics are assumed: the
store round-trips cell values unchanged. The fixed header row of the sheet
is the constant `HEADERS`; it is not part of the data-row list (no entry id
ever equals the literal header text, so the first-column search over data
rows coincides with the sheet-wide search of the original).

Fallible store calls are made explicit: a fetch outcome is an
`Except String Sheet` (error message or rows), and an append outcome is a
Bool flag. Streamlit reporting calls (st.error / st.warning / st.success)
become `UiEvent` values returned alongside results.
-/

/-- Spreadsheet cell value: a string, or an integer (Python `int`). -/
inductive Cell where
  | str (s : String)
  | int (n : Int)
deriving DecidableEq

/-- Python `str(...)` applied to a cell value. -/
def cellToStr : Cell → String
  | Cell.str s => s
  | Cell.int n => toString n

/-- Worksheet data rows (header row excluded), in store order. -/
abbrev Sheet := List (List Cell)

/-- The fixed column headers `HEADERS` of the app. -/
def HEADERS : List String := ["ID", "Timestamp", "Cashier", "Bank", "Credit"]

/-- One row of the loaded pandas DataFrame. After `load_data_from_gsheet`
the `ID` column has been coerced to `str` (`df['ID'].astype(str)`); the
other columns keep the raw cell values fetched from the store. -/
structure Row where
  id : String
  timestamp : Cell
  cashier : Cell
  bank : Cell
  credit : Cell
deriving DecidableEq

/-- The loaded DataFrame: column labels plus parsed rows. -/
structure Frame where
  cols : List String
  rows : List Row
deriving DecidableEq

/-- User-visible reporting calls made by the app (st.error, st.warning,
st.success), with the identifying data each one carries. -/
inductive UiEvent where
  | warnSelectBank
  | warnEnterCredit
  | saveSuccess (id : Int) (bank : String) (credit : Cell)
  | saveError
  | loadError (msg : String)
deriving DecidableEq

/-- One raw record from `ws.get_all_records()` turned into a DataFrame row:
cells are read by header position and the `ID` cell is coerced to `str`
(line 40 of the source); a missing cell reads as the empty string. -/
def rowOfRaw (c : List Cell) : Row :=
  { id := cellToStr (c.getD 0 (Cell.str "")),
    timestamp := c.getD 1 (Cell.str ""),
    cashier := c.getD 2 (Cell.str ""),
    bank := c.getD 3 (Cell.str ""),
    credit := c.getD 4 (Cell.str "") }

/-- Model of `load_data_from_gsheet(ws)` (lines 32-44): on a fetch failure
the exception is reported via `st.error` and an empty DataFrame with the
standard `HEADERS` columns is returned; an empty fetch also yields the
empty `HEADERS` frame; otherwise the records become rows with the `ID`
column coerced to strings. -/
def load_data_from_gsheet (fetch : Except String Sheet) : Frame × List UiEvent :=
  match fetch with
  | Except.error e =>
      (⟨HEADERS, []⟩, [UiEvent.loadError ("Failed to load data from Google Sheet: " ++ e)])
  | Except.ok ws =>
      if ws.isEmpty then (⟨HEADERS, []⟩, [])
      else (⟨HEADERS, ws.map rowOfRaw⟩, [])

/-- The DataFrame the app works with after a successful fetch of `ws`. -/
def loadedFrame (ws : Sheet) : Frame := (load_data_from_gsheet (Except.ok ws)).1

/-- ASCII whitespace, the characters the numeric coercion skips around a
value (space and the control characters tab through carriage return). -/
def isSpaceChar (c : Char) : Bool := c.toNat = 32 || (9 ≤ c.toNat && c.toNat ≤ 13)

/-- ASCII decimal digit test. -/
def isDigitChar (c : Char) : Bool := 48 ≤ c.toNat && c.toNat ≤ 57

/-- Decimal value of a digit run. -/
def digitsVal (ds : List Char) : Nat := ds.foldl (fun acc c => acc * 10 + (c.toNat - 48)) 0

/-- Drop leading and trailing whitespace. -/
def stripSpaces (cs : List Char) : List Char :=
  ((cs.dropWhile isSpaceChar).reverse.dropWhile isSpaceChar).reverse

/-- Consume one optional leading sign; the flag is true for a minus. -/
def takeSign : List Char → Bool × List Char
  | '-' :: cs => (true, cs)
  | '+' :: cs => (false, cs)
  | cs => (false, cs)

/-- Parse what may follow the mantissa: nothing (exponent 0), or a full
exponent marker `e`/`E` with an optional sign and at least one digit and
nothing after it; anything else makes the whole value non-numeric. -/
def parseExpPart : List Char → Option Int
  | [] => some 0
  | c :: cs =>
      if c.toNat = 101 || c.toNat = 69 then
        let p := takeSign cs
        let ds := p.2.takeWhile isDigitChar
        let rest := p.2.dropWhile isDigitChar
        if ds.isEmpty || !rest.isEmpty then none
        else some (if p.1 then -(digitsVal ds : Int) else (digitsVal ds : Int))
      else none

/-- Parse one stripped decimal literal: optional sign, integer digits, an
optional fractional part, an optional exponent; at least one mantissa
digit is required and nothing may trail the number. The result is the
exact rational value. -/
def parseDecAux (cs : List Char) : Option ℚ :=
  let p := takeSign cs
  let intDs := p.2.takeWhile isDigitChar
  let rest1 := p.2.dropWhile isDigitChar
  let q : List Char × List Char :=
    match rest1 with
    | '.' :: cs2 => (cs2.takeWhile isDigitChar, cs2.dropWhile isDigitChar)
    | _ => ([], rest1)
  if intDs.isEmpty && q.1.isEmpty then none
  else
    match parseExpPart q.2 with
    | none => none
    | some ex =>
        let mant : Int := digitsVal (intDs ++ q.1)
        let m : Int := if p.1 then -mant else mant
        let e : Int := ex - (q.1.length : Int)
        if 0 ≤ e then some (mkRat (m * 10 ^ e.toNat) 1)
        else some (mkRat m (10 ^ (-e).toNat))

/-- Model of `pd.to_numeric(s, errors='coerce')` on one id string: accepts
optional surrounding whitespace, an optional sign, a decimal mantissa with
an optional fractional part, and an optional decimal exponent, yielding
the exact rational value ("2.5", " 7", "+5", "1e3" are all numeric); any
other string coerces to NaN, modelled as `none`. Values are exact
rationals: the binary floating-point rounding of the underlying parser is
not modelled, and neither are the non-finite literals (inf, nan) on which
the original would overflow or propagate NaN. -/
def toNumeric (s : String) : Option ℚ := parseDecAux (stripSpaces s.data)

/-- Python `int(...)` on a rational: truncation toward zero. -/
def ratTrunc (q : ℚ) : Int := Int.tdiv q.num (q.den : Int)

/-- Maximum of a list of rationals, `none` on the empty list: the model of
a pandas `.max()` over the non-NaN entries of a column. -/
def listMax : List ℚ → Option ℚ
  | [] => none
  | x :: xs =>
      match listMax xs with
      | none => some x
      | some m => some (max x m)

/-- The numeric ids of a frame: the `ID` column values that coerce to
numbers, in row order (NaNs, i.e. malformed ids, dropped). -/
def numericIds (df : Frame) : List ℚ :=
  df.rows.filterMap (fun r => toNumeric r.id)

/-- Model of `get_next_id(df)` (lines 46-52): 1 for an empty frame or one
without an `ID` column, otherwise `int(max(to_numeric(ID))) + 1` — the
maximum numeric id truncated toward zero by `int(...)`, plus one —
falling back to 1 when no id coerces to a number. -/
def get_next_id (df : Frame) : Int :=
  if df.rows.isEmpty || !(df.cols.contains "ID") then 1
  else
    match listMax (numericIds df) with
    | some m => ratTrunc m + 1
    | none => 1

/-- The entry mapping built by the submit handler (line 152), with the
`ID` key absent until `save_entry` inserts it. -/
structure Entry where
  timestamp : String
  bank : String
  credit : Cell
  cashier : String
  id : Option Int := none
deriving DecidableEq

/-- Row of cells built by `save_entry` from the entry mapping:
`[entry.get(h, "") for h in HEADERS]` (line 61). -/
def entryRow (e : Entry) : List Cell :=
  [match e.id with | some n => Cell.int n | none => Cell.str "",
   Cell.str e.timestamp, Cell.str e.cashier, Cell.str e.bank, e.credit]

/-- Result of `save_entry`: the store after the call, the entry mapping
after the call (the caller's dict, mutated in place by the original), the
reporting events, and the returned success flag. -/
structure SaveResult where
  ws : Sheet
  entry : Entry
  events : List UiEvent
  ok : Bool
deriving DecidableEq

/-- Model of `save_entry(ws, df, entry)` (lines 54-70): compute the next id
from `df`, store it into the entry mapping, build the data row, then append
it to the store. `appendOk` is the outcome of the fallible
`ws.append_row` network call: on success the row is appended and
`st.success` fires; on failure the store is unchanged, `st.error` fires and
False is returned — but the entry mapping already holds the id either way,
exactly as in the original where `entry["ID"] = entry_id` precedes the
append inside the `try` block. -/
def save_entry (ws : Sheet) (df : Frame) (entry : Entry) (appendOk : Bool) : SaveResult :=
  let entry_id := get_next_id df
  let entry2 := { entry with id := some entry_id }
  let data_row := entryRow entry2
  if appendOk then
    ⟨ws ++ [data_row], entry2, [UiEvent.saveSuccess entry_id entry2.bank entry2.credit], true⟩
  else
    ⟨ws, entry2, [UiEvent.saveError], false⟩

/-- Display string of the first column of a data row (what
`ws.find(..., in_column=1)` compares against). -/
def firstColStr (r : List Cell) : String := cellToStr (r.headD (Cell.str ""))

/-- Model of `ws.find(v, in_column=1)`: the 0-based position of the first
data row whose first-column display value equals `v`, or `none`. -/
def findRow (v : String) : Sheet → Option Nat
  | [] => none
  | r :: rs => if firstColStr r = v then some 0 else (findRow v rs).map (fun i => i + 1)

/-- Model of `remove_entry_from_gsheet(ws, entry_id)` (lines 72-84): convert
the id to a string, find the first matching row in column 1, delete exactly
that row and return True with a success message; otherwise leave the sheet
alone and return False with a not-found message. -/
def remove_entry_from_gsheet (ws : Sheet) (entry_id : Cell) : Sheet × Bool × String :=
  match findRow (cellToStr entry_id) ws with
  | some i =>
      (ws.eraseIdx i, true, "Entry ID " ++ cellToStr entry_id ++ " deleted successfully.")
  | none =>
      (ws, false, "Could not find entry ID " ++ cellToStr entry_id ++ ".")

/-- Textual form of a DataFrame row used by the search mask:
`' '.join(row.astype(str))` (line 168), columns in header order. -/
def rowStr (r : Row) : String :=
  String.intercalate " "
    [r.id, cellToStr r.timestamp, cellToStr r.cashier, cellToStr r.bank, cellToStr r.credit]

/-- Boolean substring test, the model of the Python `in` operator on
strings: the needle's characters form an infix of the haystack's. -/
def containsSub (hay needle : String) : Bool :=
  decide (needle.data <:+: hay.data)

/-- ASCII lower-casing of one character, the model of Python `str.lower`
on the ASCII data this app handles. -/
def lowerChar (c : Char) : Char :=
  if 65 ≤ c.toNat && c.toNat ≤ 90 then Char.ofNat (c.toNat + 32) else c

/-- Lower-case a whole string character by character. -/
def lowerStr (s : String) : String := ⟨s.data.map lowerChar⟩

/-- Model of the search filter (lines 166-171): a non-empty query keeps the
rows whose lower-cased joined text contains the lower-cased query; the
empty query (falsy in Python) leaves the frame unfiltered. -/
def search_filter (query : String) (rows : List Row) : List Row :=
  if query = "" then rows
  else rows.filter (fun r => containsSub (lowerStr (rowStr r)) (lowerStr query))

/-- Lexicographic comparison of character lists by code point, the order
Python (and hence pandas on a string column) uses to compare strings. -/
def strLeList : List Char → List Char → Bool
  | [], _ => true
  | _ :: _, [] => false
  | a :: as, b :: bs =>
      if a.toNat < b.toNat then true
      else if b.toNat < a.toNat then false
      else strLeList as bs

/-- String comparison by code points, lexicographically. -/
def strLe (a b : String) : Bool := strLeList a.data b.data

/-- Insert a row into a list kept in descending `ID`-string order; helper
for the model of `sort_values(by="ID", ascending=False)`. -/
def insertDesc (r : Row) : List Row → List Row
  | [] => [r]
  | x :: xs => if strLe x.id r.id then r :: x :: xs else x :: insertDesc r xs

/-- Model of `filtered_df.sort_values(by="ID", ascending=False)` (line 173).
At this point the `ID` column holds strings (coerced by the load), so
pandas compares them as strings: the result is in descending lexicographic
order of the id strings. The model fixes one comparison sort; the original
kind of sort differs only on rows with equal id strings. -/
def sortDescById (rows : List Row) : List Row :=
  rows.foldr insertDesc []

/-- The sequence shown in the entries table for query `q` over loaded rows:
filter, then sort descending by the id string (lines 166-173). -/
def displaySeq (q : String) (rows : List Row) : List Row :=
  sortDescById (search_filter q rows)

/-- The per-session Streamlit state the submit handler reads: the page only
runs with a cashier chosen, and a bank may or may not be selected. -/
structure SessionState where
  selected_cashier : String
  selected_bank : Option String
deriving DecidableEq

/-- State after one run of the submit branch: the session state, the credit
number-input widget value at the next rerun, the store, and the reporting
events of the run. -/
structure SubmitResult where
  sess : SessionState
  credit : Option Cell
  ws : Sheet
  events : List UiEvent
deriving DecidableEq

/-- Model of the submitted-form branch of `main_app_page` (lines 141-157)
for a run whose store read succeeds: warn when no bank is selected or no
credit is entered; otherwise build the entry mapping, load the frame to
compute the id, and call `save_entry` (`appendOk` is the append outcome).
The session state is never written in this branch. The form is declared
with `clear_on_submit=True` (line 141), so on every submitted run the
credit widget value is reset to `None` for the next rerun, whatever the
outcome. -/
def handle_submit (sess : SessionState) (credit : Option Cell) (ws : Sheet)
    (appendOk : Bool) (now : String) : SubmitResult :=
  match sess.selected_bank with
  | none => ⟨sess, none, ws, [UiEvent.warnSelectBank]⟩
  | some bank =>
      match credit with
      | none => ⟨sess, none, ws, [UiEvent.warnEnterCredit]⟩
      | some c =>
          let entry : Entry := { timestamp := now, bank := bank, credit := c,
                                 cashier := sess.selected_cashier }
          let df := loadedFrame ws
          let r := save_entry ws df entry appendOk
          ⟨sess, none, r.ws, r.events⟩

/-- Concrete store used to instantiate the general theorems: the snapshot
of the specification scenario, with ids 1 and 3. -/
def exSheet : Sheet :=
  [[Cell.int 1, Cell.str "2024-01-01 09:00:00", Cell.str "Misrak", Cell.str "Abay",
    Cell.str "100.00"],
   [Cell.int 3, Cell.str "2024-01-01 10:00:00", Cell.str "Emush", Cell.str "Nib",
    Cell.str "50.00"]]

/-- A display row with a given id string and fixed other fields, used for
concrete instances. -/
def mkRow (i : String) : Row :=
  { id := i, timestamp := Cell.str "2024-01-01 09:00:00", cashier := Cell.str "Misrak",
    bank := Cell.str "CBE", credit := Cell.str "100.00" }

/-- Boolean form of the ordering the specification asserts for the display
table: whenever both ids parse as numbers, the earlier row's numeric id is
at least the later row's. -/
def numDescPair (a b : Row) : Bool :=
  match toNumeric a.id, toNumeric b.id with
  | some m, some n => decide (n ≤ m)
  | _, _ => true

/-! ## Helper lemmas -/

theorem loadedFrame_rows (ws : Sheet) : (loadedFrame ws).rows = ws.map rowOfRaw := by
  cases ws <;> simp [loadedFrame, load_data_from_gsheet]

theorem loadedFrame_cols (ws : Sheet) : (loadedFrame ws).cols = HEADERS := by
  cases ws <;> simp [loadedFrame, load_data_from_gsheet]

theorem findRow_eq_none_iff (v : String) :
    ∀ ws : Sheet, findRow v ws = none ↔ ∀ r ∈ ws, firstColStr r ≠ v := by
  intro ws
  induction ws with
  | nil => simp [findRow]
  | cons a as ih =>
      by_cases ha : firstColStr a = v
      · simp [findRow, ha]
      · simp [findRow, ha, ih]

theorem findRow_eq_some (v : String) :
    ∀ (ws : Sheet) (i : Nat), findRow v ws = some i →
      (∃ r, ws[i]? = some r ∧ firstColStr r = v) ∧
      ∀ j, j < i → ∀ r, ws[j]? = some r → firstColStr r ≠ v := by
  intro ws
  induction ws with
  | nil => intro i h; simp [findRow] at h
  | cons a as ih =>
      intro i h
      by_cases ha : firstColStr a = v
      · simp [findRow, ha] at h
        subst h
        refine ⟨⟨a, by simp, ha⟩, ?_⟩
        intro j hj
        omega
      · simp [findRow, ha] at h
        obtain ⟨k, hk, rfl⟩ := h
        obtain ⟨⟨r, hr, hrv⟩, hmin⟩ := ih k hk
        refine ⟨⟨r, by simpa using hr, hrv⟩, ?_⟩
        intro j hj r2 hr2
        cases j with
        | zero =>
            simp at hr2
            subst hr2
            exact ha
        | succ j2 =>
            exact hmin j2 (by omega) r2 (by simpa using hr2)

theorem no_match_after_erase (v : String) :
    ∀ (ws : Sheet) (i : Nat),
      (ws.filter (fun r => decide (firstColStr r = v))).length ≤ 1 →
      findRow v ws = some i →
      ∀ r ∈ ws.eraseIdx i, firstColStr r ≠ v := by
  intro ws
  induction ws with
  | nil => intro i _ h; simp [findRow] at h
  | cons a as ih =>
      intro i hlen hfind r hr
      by_cases ha : firstColStr a = v
      · have hi : i = 0 := by
          simp [findRow, ha] at hfind
          omega
        subst hi
        simp [List.eraseIdx] at hr
        have hnil : as.filter (fun r => decide (firstColStr r = v)) = [] := by
          have hpa : (fun r => decide (firstColStr r = v)) a = true := by simpa using ha
          have hsplit : (a :: as).filter (fun r => decide (firstColStr r = v)) =
              a :: as.filter (fun r => decide (firstColStr r = v)) :=
            List.filter_cons_of_pos hpa
          rw [hsplit, List.length_cons] at hlen
          have : (as.filter (fun r => decide (firstColStr r = v))).length = 0 := by omega
          exact List.eq_nil_of_length_eq_zero this
        have hall := List.filter_eq_nil_iff.mp hnil r hr
        simpa using hall
      · have hstep : ∃ k, findRow v as = some k ∧ i = k + 1 := by
          simp [findRow, ha] at hfind
          obtain ⟨k, hk, hki⟩ := hfind
          exact ⟨k, hk, hki.symm⟩
        obtain ⟨k, hk, rfl⟩ := hstep
        have hlen2 : (as.filter (fun r => decide (firstColStr r = v))).length ≤ 1 := by
          have hpa : ¬ (fun r => decide (firstColStr r = v)) a = true := by simpa using ha
          have hsplit : (a :: as).filter (fun r => decide (firstColStr r = v)) =
              as.filter (fun r => decide (firstColStr r = v)) :=
            List.filter_cons_of_neg hpa
          rwa [hsplit] at hlen
        simp [List.eraseIdx] at hr
        rcases hr with rfl | hr2
        · exact ha
        · exact ih k hlen2 hk r hr2

theorem strLeList_total : ∀ as bs : List Char, strLeList as bs = true ∨ strLeList bs as = true := by
  intro as
  induction as with
  | nil => intro bs; left; cases bs <;> rfl
  | cons a as ih =>
      intro bs
      cases bs with
      | nil => right; rfl
      | cons b bs =>
          rcases Nat.lt_trichotomy a.toNat b.toNat with h | h | h
          · left
            simp [strLeList, h]
          · have h2 : ¬ a.toNat < b.toNat := by omega
            have h3 : ¬ b.toNat < a.toNat := by omega
            simpa [strLeList, h2, h3] using ih bs
          · right
            simp [strLeList, h]

theorem strLeList_trans : ∀ as bs cs : List Char,
    strLeList as bs = true → strLeList bs cs = true → strLeList as cs = true := by
  intro as
  induction as with
  | nil => intro bs cs _ _; cases cs <;> rfl
  | cons a as ih =>
      intro bs cs h1 h2
      cases bs with
      | nil => simp [strLeList] at h1
      | cons b bs =>
          cases cs with
          | nil => simp [strLeList] at h2
          | cons c cs =>
              rcases Nat.lt_trichotomy a.toNat b.toNat with hab | hab | hab
              · rcases Nat.lt_trichotomy b.toNat c.toNat with hbc | hbc | hbc
                · have : a.toNat < c.toNat := by omega
                  simp [strLeList, this]
                · have : a.toNat < c.toNat := by omega
                  simp [strLeList, this]
                · have hb1 : ¬ b.toNat < c.toNat := by omega
                  simp [strLeList, hb1, hbc] at h2
              · rcases Nat.lt_trichotomy b.toNat c.toNat with hbc | hbc | hbc
                · have : a.toNat < c.toNat := by omega
                  simp [strLeList, this]
                · have h4 : ¬ a.toNat < c.toNat := by omega
                  have h5 : ¬ c.toNat < a.toNat := by omega
                  have h6 : ¬ a.toNat < b.toNat := by omega
                  have h7 : ¬ b.toNat < a.toNat := by omega
                  have h8 : ¬ b.toNat < c.toNat := by omega
                  have h9 : ¬ c.toNat < b.toNat := by omega
                  simp [strLeList, h6, h7] at h1
                  simp [strLeList, h8, h9] at h2
                  simp [strLeList, h4, h5]
                  exact ih bs cs h1 h2
                · have hb1 : ¬ b.toNat < c.toNat := by omega
                  simp [strLeList, hb1, hbc] at h2
              · have ha1 : ¬ a.toNat < b.toNat := by omega
                simp [strLeList, ha1, hab] at h1

theorem strLe_total (a b : String) : strLe a b = true ∨ strLe b a = true :=
  strLeList_total a.data b.data

theorem strLe_trans {a b c : String} (h1 : strLe a b = true) (h2 : strLe b c = true) :
    strLe a c = true :=
  strLeList_trans a.data b.data c.data h1 h2

/-- Descending order on display rows: the id string of the second row is at
most the id string of the first, in code-point lexicographic order. -/
def RowGe (a b : Row) : Prop := strLe b.id a.id = true

theorem mem_insertDesc (r a : Row) : ∀ l : List Row, a ∈ insertDesc r l ↔ a = r ∨ a ∈ l := by
  intro l
  induction l with
  | nil => simp [insertDesc]
  | cons x xs ih =>
      cases h : strLe x.id r.id with
      | true => simp [insertDesc, h, List.mem_cons]
      | false =>
          simp [insertDesc, h, List.mem_cons, ih]
          tauto

theorem insertDesc_perm (r : Row) : ∀ l : List Row, (insertDesc r l).Perm (r :: l) := by
  intro l
  induction l with
  | nil => exact List.Perm.refl _
  | cons x xs ih =>
      cases h : strLe x.id r.id with
      | true => simp [insertDesc, h]
      | false =>
          simp only [insertDesc, h, Bool.false_eq_true, if_false]
          exact (ih.cons x).trans (List.Perm.swap r x xs)

theorem insertDesc_pairwise (r : Row) :
    ∀ l : List Row, List.Pairwise RowGe l → List.Pairwise RowGe (insertDesc r l) := by
  intro l
  induction l with
  | nil => intro _; simp [insertDesc, List.pairwise_singleton]
  | cons x xs ih =>
      intro hp
      rcases List.pairwise_cons.mp hp with ⟨hx, hxs⟩
      cases h : strLe x.id r.id with
      | true =>
          simp only [insertDesc, h, if_true]
          refine List.pairwise_cons.mpr ⟨?_, hp⟩
          intro b hb
          rcases List.mem_cons.mp hb with rfl | hbmem
          · exact h
          · exact strLe_trans (hx b hbmem) h
      | false =>
          simp only [insertDesc, h, Bool.false_eq_true, if_false]
          refine List.pairwise_cons.mpr ⟨?_, ih hxs⟩
          intro b hb
          rcases (mem_insertDesc r b xs).mp hb with rfl | hbmem
          · rcases strLe_total x.id b.id with h2 | h2
            · rw [h2] at h
              exact absurd h (by simp)
            · exact h2
          · exact hx b hbmem

theorem sortDescById_perm : ∀ l : List Row, (sortDescById l).Perm l := by
  intro l
  induction l with
  | nil => exact List.Perm.refl _
  | cons x xs ih =>
      have : sortDescById (x :: xs) = insertDesc x (sortDescById xs) := rfl
      rw [this]
      exact (insertDesc_perm x (sortDescById xs)).trans (ih.cons x)

theorem sortDescById_pairwise : ∀ l : List Row, List.Pairwise RowGe (sortDescById l) := by
  intro l
  induction l with
  | nil => simp [sortDescById]
  | cons x xs ih =>
      have : sortDescById (x :: xs) = insertDesc x (sortDescById xs) := rfl
      rw [this]
      exact insertDesc_pairwise x (sortDescById xs) ih

/-! ## Claim theorems -/

/-- C2: a successful save followed by a reload yields the prior row
sequence plus exactly one new row whose id is the assigned id (in the
string form the load coerces ids to) and whose timestamp, cashier, bank
and credit are the inputs verbatim; the save returns success and its
assigned id. -/
theorem append_then_list (ws : Sheet) (df : Frame) (now cashier bank : String) (credit : Cell) :
    (save_entry ws df ⟨now, bank, credit, cashier, none⟩ true).ok = true ∧
    (save_entry ws df ⟨now, bank, credit, cashier, none⟩ true).entry.id =
      some (get_next_id df) ∧
    (loadedFrame (save_entry ws df ⟨now, bank, credit, cashier, none⟩ true).ws).rows =
      (loadedFrame ws).rows ++
        [{ id := toString (get_next_id df), timestamp := Cell.str now,
           cashier := Cell.str cashier, bank := Cell.str bank, credit := credit }] := by
  refine ⟨rfl, rfl, ?_⟩
  have hws : (save_entry ws df ⟨now, bank, credit, cashier, none⟩ true).ws =
      ws ++ [entryRow ⟨now, bank, credit, cashier, some (get_next_id df)⟩] := rfl
  rw [hws, loadedFrame_rows, loadedFrame_rows, List.map_append]
  simp [entryRow, rowOfRaw, cellToStr]

/-- C3: deletion of an id with a matching row returns True and removes
exactly the first row whose first column displays as the id string, and
deletion of an absent id returns False and removes nothing. -/
theorem remove_entry_correct (ws : Sheet) (v : Cell) :
    ((∃ r ∈ ws, firstColStr r = cellToStr v) →
        ∃ i, (remove_entry_from_gsheet ws v).2.1 = true ∧
          (remove_entry_from_gsheet ws v).1 = ws.eraseIdx i ∧
          (remove_entry_from_gsheet ws v).1.length + 1 = ws.length ∧
          (∃ r, ws[i]? = some r ∧ firstColStr r = cellToStr v) ∧
          (∀ j, j < i → ∀ r, ws[j]? = some r → firstColStr r ≠ cellToStr v)) ∧
    ((∀ r ∈ ws, firstColStr r ≠ cellToStr v) →
        (remove_entry_from_gsheet ws v).1 = ws ∧
        (remove_entry_from_gsheet ws v).2.1 = false) := by
  constructor
  · intro hex
    cases hfind : findRow (cellToStr v) ws with
    | none =>
        obtain ⟨r, hr, hrv⟩ := hex
        exact absurd hrv (((findRow_eq_none_iff _ ws).mp hfind) r hr)
    | some i =>
        obtain ⟨⟨r, hri, hrv⟩, hmin⟩ := findRow_eq_some _ ws i hfind
        have hilen : i < ws.length := by
          by_contra hge
          rw [List.getElem?_eq_none (by omega)] at hri
          simp at hri
        refine ⟨i, ?_, ?_, ?_, ⟨r, hri, hrv⟩, hmin⟩
        · simp [remove_entry_from_gsheet, hfind]
        · simp [remove_entry_from_gsheet, hfind]
        · simp only [remove_entry_from_gsheet, hfind]
          rw [List.length_eraseIdx]
          simp only [hilen, if_true]
          omega
  · intro hall
    have hfind : findRow (cellToStr v) ws = none := (findRow_eq_none_iff _ ws).mpr hall
    constructor <;> simp [remove_entry_from_gsheet, hfind]

/-- Witness for C3: deleting id 3 from the scenario store succeeds and
removes the one matching row. -/
theorem remove_entry_correct_witness :
    ∃ i, (remove_entry_from_gsheet exSheet (Cell.str "3")).2.1 = true ∧
      (remove_entry_from_gsheet exSheet (Cell.str "3")).1 = exSheet.eraseIdx i ∧
      (remove_entry_from_gsheet exSheet (Cell.str "3")).1.length + 1 = exSheet.length ∧
      (∃ r, exSheet[i]? = some r ∧ firstColStr r = cellToStr (Cell.str "3")) ∧
      (∀ j, j < i → ∀ r, exSheet[j]? = some r → firstColStr r ≠ cellToStr (Cell.str "3")) :=
  (remove_entry_correct exSheet (Cell.str "3")).1 (by decide)

/-- C4: under the id-uniqueness invariant (at most one row matches the id),
deleting the same id a second time returns not-found and leaves the store
exactly as the first deletion left it. -/
theorem remove_entry_idempotent (ws : Sheet) (v : Cell)
    (huniq : (ws.filter (fun r => decide (firstColStr r = cellToStr v))).length ≤ 1) :
    (remove_entry_from_gsheet (remove_entry_from_gsheet ws v).1 v).1 =
        (remove_entry_from_gsheet ws v).1 ∧
    (remove_entry_from_gsheet (remove_entry_from_gsheet ws v).1 v).2.1 = false := by
  cases hfind : findRow (cellToStr v) ws with
  | none =>
      have hws1 : (remove_entry_from_gsheet ws v).1 = ws := by
        simp [remove_entry_from_gsheet, hfind]
      rw [hws1]
      constructor <;> simp [remove_entry_from_gsheet, hfind]
  | some i =>
      have hws1 : (remove_entry_from_gsheet ws v).1 = ws.eraseIdx i := by
        simp [remove_entry_from_gsheet, hfind]
      have hnone : findRow (cellToStr v) (ws.eraseIdx i) = none :=
        (findRow_eq_none_iff _ _).mpr (no_match_after_erase _ ws i huniq hfind)
      rw [hws1]
      constructor <;> simp [remove_entry_from_gsheet, hnone]

/-- Witness for C4: after deleting id 3 from the scenario store, a second
deletion of id 3 is a no-op reporting not-found. -/
theorem remove_entry_idempotent_witness :
    (remove_entry_from_gsheet (remove_entry_from_gsheet exSheet (Cell.str "3")).1
        (Cell.str "3")).1 =
      (remove_entry_from_gsheet exSheet (Cell.str "3")).1 ∧
    (remove_entry_from_gsheet (remove_entry_from_gsheet exSheet (Cell.str "3")).1
        (Cell.str "3")).2.1 = false :=
  remove_entry_idempotent exSheet (Cell.str "3") (by decide)

/-- C5: the search filter keeps exactly the rows whose lower-cased joined
field text contains the lower-cased query as a substring, and the empty
query leaves the snapshot unfiltered. -/
theorem search_filter_correct (q : String) (rows : List Row) :
    search_filter q rows =
      rows.filter (fun r => decide ((lowerStr q).data <:+: (lowerStr (rowStr r)).data)) ∧
    (q = "" → search_filter q rows = rows) := by
  constructor
  · by_cases hq : q = ""
    · subst hq
      have hall : ∀ r ∈ rows,
          decide ((lowerStr "").data <:+: (lowerStr (rowStr r)).data) = true := by
        intro r _
        simp only [decide_eq_true_eq]
        have h0 : (lowerStr "").data = [] := rfl
        rw [h0]
        exact List.nil_infix
      rw [List.filter_eq_self.mpr hall]
      simp [search_filter]
    · simp [search_filter, hq, containsSub]
  · intro hq
    simp [search_filter, hq]

/-- Witness for C5: the empty query leaves a one-row snapshot unchanged. -/
theorem search_filter_correct_witness :
    search_filter "" [mkRow "1"] = [mkRow "1"] :=
  (search_filter_correct "" [mkRow "1"]).2 rfl

/-- C6 counterexample: in a snapshot whose ids 2 and 10 are both numeric,
the displayed sequence puts the row with id 2 before the row with id 10,
because the sort compares the id strings lexicographically; so the display
is not in descending numeric-id order. -/
theorem display_order_not_numeric_desc :
    (∀ r ∈ [mkRow "2", mkRow "10"], (toNumeric r.id).isSome = true) ∧
    ¬ List.Pairwise (fun a b => numDescPair a b = true)
        (displaySeq "" [mkRow "2", mkRow "10"]) := by
  constructor
  · decide
  · decide

/-- C6 amended: the displayed sequence is a permutation of the filtered
snapshot arranged in descending lexicographic order of the id strings
(the load coerces ids to strings, so pandas sorts them as strings);
descending numeric order holds only when numeric order agrees with string
order. -/
theorem display_order_desc_by_string_id (q : String) (rows : List Row) :
    (displaySeq q rows).Perm (search_filter q rows) ∧
    List.Pairwise RowGe (displaySeq q rows) :=
  ⟨sortDescById_perm _, sortDescById_pairwise _⟩

/-- C7 counterexample: with the bank selected and an amount entered, a
failed append is reported as an error, but the entered credit amount is
cleared by the form's clear-on-submit setting instead of being preserved
for a retry. -/
theorem submit_failure_clears_credit :
    (handle_submit ⟨"Misrak", some "CBE"⟩ (some (Cell.str "100.5")) [] false
        "2024-01-01 09:00:00").events = [UiEvent.saveError] ∧
    (handle_submit ⟨"Misrak", some "CBE"⟩ (some (Cell.str "100.5")) [] false
        "2024-01-01 09:00:00").credit = none ∧
    some (Cell.str "100.5") ≠ (none : Option Cell) := by
  refine ⟨by decide, by decide, by decide⟩

/-- C7 amended: on an append failure with a bank selected and a credit
entered, the failure is reported, the store and the cashier and bank
selections are preserved, but the credit input is cleared by the form's
clear-on-submit behaviour, so the amount must be re-entered to retry. -/
theorem submit_failure_keeps_selections (sess : SessionState) (b : String) (c : Cell)
    (ws : Sheet) (now : String) (hb : sess.selected_bank = some b) :
    handle_submit sess (some c) ws false now =
      ⟨sess, none, ws, [UiEvent.saveError]⟩ := by
  simp [handle_submit, hb, save_entry]

/-- Witness for C7 amended at a concrete session and store. -/
theorem submit_failure_keeps_selections_witness :
    handle_submit ⟨"Misrak", some "CBE"⟩ (some (Cell.str "100.5")) exSheet false
        "2024-01-01 09:00:00" =
      ⟨⟨"Misrak", some "CBE"⟩, none, exSheet, [UiEvent.saveError]⟩ :=
  submit_failure_keeps_selections ⟨"Misrak", some "CBE"⟩ "CBE" (Cell.str "100.5") exSheet
    "2024-01-01 09:00:00" rfl

/-- C8: a fetch failure is reported to the caller as the empty frame with
the standard column shape, together with a visible error event carrying
the failure text; the call returns this result instead of raising. -/
theorem load_failure_reported_empty (e : String) :
    (load_data_from_gsheet (Except.error e)).1.rows = [] ∧
    (load_data_from_gsheet (Except.error e)).1.cols = HEADERS ∧
    (load_data_from_gsheet (Except.error e)).2 =
      [UiEvent.loadError ("Failed to load data from Google Sheet: " ++ e)] :=
  ⟨rfl, rfl, rfl⟩

/-- C9: `save_entry` stores the computed id into the caller's entry mapping
before the append, so after the call the mapping holds the id whether the
append succeeded or not. -/
theorem save_entry_mutates_entry (ws : Sheet) (df : Frame) (entry : Entry) (appendOk : Bool) :
    (save_entry ws df entry appendOk).entry =
        { entry with id := some (get_next_id df) } ∧
    (save_entry ws df entry appendOk).entry.id = some (get_next_id df) := by
  cases appendOk <;> exact ⟨rfl, rfl⟩

/-- C10: every id in a loaded snapshot is the string coercion of the raw
first-column cell, and the delete path matches rows by exact equality of
`str(entry_id)` with the first-column display text: two cells with the same
string form drive the deletion identically, and a row matches exactly when
the strings are equal, never by numeric comparison. -/
theorem delete_path_string_semantics :
    (∀ ws : Sheet, ∀ r ∈ (loadedFrame ws).rows, ∃ raw ∈ ws, r.id = firstColStr raw) ∧
    (∀ (ws : Sheet) (v w : Cell), cellToStr v = cellToStr w →
        remove_entry_from_gsheet ws v = remove_entry_from_gsheet ws w) ∧
    (∀ (ws : Sheet) (v : Cell),
        findRow (cellToStr v) ws = none ↔ ∀ r ∈ ws, firstColStr r ≠ cellToStr v) := by
  refine ⟨?_, ?_, ?_⟩
  · intro ws r hr
    rw [loadedFrame_rows] at hr
    obtain ⟨raw, hraw, rfl⟩ := List.mem_map.mp hr
    refine ⟨raw, hraw, ?_⟩
    cases raw <;> rfl
  · intro ws v w h
    simp [remove_entry_from_gsheet, h]
  · intro ws v
    exact findRow_eq_none_iff _ ws

/-- Witness for C10: the integer cell 3 and the string cell "3" have the
same string form and drive the delete path identically on the scenario
store. -/
theorem delete_path_string_semantics_witness :
    remove_entry_from_gsheet exSheet (Cell.int 3) =
      remove_entry_from_gsheet exSheet (Cell.str "3") :=
  delete_path_string_semantics.2.1 exSheet (Cell.int 3) (Cell.str "3") (by decide)
